import Mathlib

/-!
Verification of `cmd/cdi-cloner/clonertarget.go` (containerized-data-importer).

The Go program is a cloner target: it reads a 16-byte hexadecimal size header
from a named pipe, reopens the pipe, relays the payload through a counting
reader into either a block-device writer or a tar extractor, and publishes a
monotone progress percentage metric from a once-per-second background tick.

The embedding below models:
 * `readTotal` / `collectTotalSize` — the header phase (hex parsing mirrors
   Go's `strconv.ParseUint(s, 16, 64)` on the 16-byte buffer);
 * `updateProgress` / `runTicks` — the progress-reporter tick, with float64
   arithmetic modelled by exact rationals (the division `current/total*100`
   and the comparison/delta against the last published counter value);
 * `mainRun` — the control flow of `main` as a trace of resource and
   dispatch events plus a process outcome, with Go semantics of `defer`
   (runs on normal return, skipped by `os.Exit`) made explicit;
 * `CountingReader.drain` — the byte-counting relay.
-/

namespace ClonerTarget

/-! ### Hex header parsing (`readTotal`, Go lines 143–156) -/

/-- Value of one ASCII character as a base-16 digit, as accepted by Go's
`strconv.ParseUint` with base 16: `0`–`9`, `a`–`f`, `A`–`F`.  `none` for any
other character. -/
def hexDigitVal (c : Char) : Option Nat :=
  if 48 ≤ c.toNat ∧ c.toNat ≤ 57 then some (c.toNat - 48)
  else if 97 ≤ c.toNat ∧ c.toNat ≤ 102 then some (c.toNat - 87)
  else if 65 ≤ c.toNat ∧ c.toNat ≤ 70 then some (c.toNat - 55)
  else none

/-- Errors of `strconv.ParseUint`: `ErrSyntax` for a non-digit or empty
string, `ErrRange` for a value that does not fit in 64 bits. -/
inductive ParseErr where
  | badDigit
  | outOfRange
deriving DecidableEq

/-- Left-to-right accumulation of hex digits, `none` at the first character
that is not a hex digit (Go returns `ErrSyntax` there). -/
def hexValAux (acc : Nat) : List Char → Option Nat
  | [] => some acc
  | c :: cs =>
    match hexDigitVal c with
    | some d => hexValAux (acc * 16 + d) cs
    | none => none

/-- Go `strconv.ParseUint(string(b), 16, 64)`: empty input and non-hex
characters are syntax errors; a parsed value `≥ 2^64` is a range error. -/
def parseUintHex64 (s : List Char) : Except ParseErr Nat :=
  if s.isEmpty then .error .badDigit
  else
    match hexValAux 0 s with
    | none => .error .badDigit
    | some v => if v < 2 ^ 64 then .ok v else .error .outOfRange

/-- The base-16 value of a character list, reading each character through
`hexDigitVal` (non-digits count as 0; the theorems only use this under an
all-hex hypothesis).  This is the mathematical "integer value of `H`". -/
def hexNatVal (s : List Char) : Nat :=
  s.foldl (fun a c => a * 16 + (hexDigitVal c).getD 0) 0

/-- Errors of the header phase as distinguished by `readTotal`:
`ioError` is an error returned by the `Read` call itself (for a source at
end-of-stream, `io.EOF`); `shortHeader` is the code's
`"Didn't read all bytes for size header"` error (`n != 16`); `malformed` is
a `ParseUint` failure. -/
inductive HeaderErr where
  | ioError
  | shortHeader
  | malformed
deriving DecidableEq

/-- Result of one Go `Read` call into a fixed-size buffer. -/
structure ReadResult where
  data : List Char
  n : Nat
  isEOF : Bool
deriving DecidableEq

/-- One-shot `Read` into a buffer of length `bufLen` from a source whose
remaining bytes are `src`: with no bytes left it returns `(0, io.EOF)`;
otherwise it returns all available bytes up to the buffer size with no
error (the behaviour of a pipe whose producer has written `src` and closed,
and of `bytes.Reader`). -/
def readChunk (src : List Char) (bufLen : Nat) : ReadResult :=
  if src.isEmpty then ⟨[], 0, true⟩
  else ⟨src.take bufLen, min bufLen src.length, false⟩

/-- Go `readTotal` (lines 143–156): read once into a 16-byte buffer, return
the `Read` error if any, the short-header error if fewer than 16 bytes came
back, otherwise `ParseUint(b, 16, 64)`. -/
def readTotal (src : List Char) : Except HeaderErr Nat :=
  if (readChunk src 16).isEOF then .error .ioError
  else if (readChunk src 16).n ≠ 16 then .error .shortHeader
  else
    match parseUintHex64 (readChunk src 16).data with
    | .ok v => .ok v
    | .error _ => .error .malformed

/-- The 16-byte header encoding 1024 (`"0000000000000400"`), the spec's
end-to-end example. -/
def hdr1024 : List Char := "0000000000000400".toList

example : readTotal hdr1024 = .ok 1024 := by rfl
example : readTotal [] = .error .ioError := by rfl
example : readTotal "0123456789".toList = .error .shortHeader := by rfl
example : readTotal "00000000000004zz".toList = .error .malformed := by rfl

/-! ### Counting relay reader (`util.CountingReader` wrapped by
`prometheusProgressReader`, Go lines 22–25 and 82–88) -/

/-- Modelled from the spec: `util.CountingReader` lives in `pkg/util`, which
is not among the given sources; only its construction
(`Reader: out, Current: 0`) appears in `clonertarget.go`.  Per the spec it
"decorates an arbitrary byte-stream source; each read of `n` bytes
atomically increments the shared counter by `n` …  Never buffers or
reorders bytes; pass-through with a side-effecting counter."  The source is
modelled as the list of chunks successive underlying reads will yield;
`current` is the shared counter (`Current`, starting at 0). -/
structure CountingReader where
  chunks : List (List Char)
  current : Nat
deriving DecidableEq

/-- One `Read` call on the counting reader: at end-of-stream it returns
`none` and leaves the counter unchanged; otherwise it passes the next chunk
through unchanged and adds its length to the counter. -/
def countingRead : CountingReader → Option (List Char) × CountingReader
  | ⟨[], cur⟩ => (none, ⟨[], cur⟩)
  | ⟨c :: cs, cur⟩ => (some c, ⟨cs, cur + c.length⟩)

/-- Fully drain the counting reader, as its consumer (the block writer or
tar extractor) does: concatenate everything the reads deliver and return
the final reader state. -/
def drainAux : List (List Char) → Nat → List Char × Nat
  | [], cur => ([], cur)
  | c :: cs, cur =>
    ((c ++ (drainAux cs (cur + c.length)).1), (drainAux cs (cur + c.length)).2)

/-- Function `drain` packaged on the reader itself: the delivered bytes and the
reader after end-of-stream. -/
def drain (r : CountingReader) : List Char × CountingReader :=
  ((drainAux r.chunks r.current).1, ⟨[], (drainAux r.chunks r.current).2⟩)

/-! ### Progress reporter (`updateProgress` / `timedUpdateProgress`,
Go lines 122–140).  Go `float64` arithmetic is modelled by exact rationals:
the quantities involved (`current/total*100`, counter sums) are the exact
values the code manipulates, and the monotonicity argument is structural
(a positive delta is added only when the fresh percentage exceeds the last
published value). -/

/-- Percentage computation `float64(r.Current) / float64(r.total) * 100.0`. -/
def pct (total current : Nat) : ℚ := (current : ℚ) / (total : ℚ) * 100

/-- Observable actions of one tick of `updateProgress`: computing the
percentage (the division), and adding a delta to the published counter
metric (`progress.WithLabelValues(ownerUID).Add(...)`). -/
inductive TickAct where
  | computedPct (v : ℚ)
  | publishedDelta (d : ℚ)
deriving DecidableEq

/-- One tick of `updateProgress` (Go lines 130–140): if `total > 0`,
compute `currentProgress`, read the last published counter value, and if
`currentProgress` exceeds it add the difference; otherwise do nothing.
Returns the tick's actions and the new published counter value. -/
def updateProgress (total current : Nat) (published : ℚ) : List TickAct × ℚ :=
  if 0 < total then
    if published < pct total current then
      ([.computedPct (pct total current),
        .publishedDelta (pct total current - published)],
       published + (pct total current - published))
    else ([.computedPct (pct total current)], published)
  else ([], published)

/-- A sequence of reporter ticks (`timedUpdateProgress`), one per sampled
counter value, threading the published metric value through. -/
def runTicks (total : Nat) : List Nat → ℚ → List TickAct × ℚ
  | [], p => ([], p)
  | c :: cs, p =>
    ((updateProgress total c p).1 ++ (runTicks total cs (updateProgress total c p).2).1,
     (runTicks total cs (updateProgress total c p).2).2)

/-! ### `main` control flow as an event trace (Go lines 43–120) -/

/-- The byte source handed to a payload consumer. `promReader` is the
counting relay reader wrapping the reopened pipe. -/
inductive Source where
  | promReader
deriving DecidableEq

/-- Resource and dispatch events of one run of the process. -/
inductive Event where
  | createTempDir
  | removeTempDir
  | openPipe
  | readHeader
  | closePipe
  | streamDataToFile (src : Source)
  | unArchiveTar (src : Source) (dir : String)
deriving DecidableEq

/-- How the process ends: `exited c` is process exit status `c` (normal
return of `main` gives status 0, `os.Exit(1)` gives 1); `panicked` is a Go
runtime panic (`panic(err)` on TempDir failure), which is not an
`os.Exit` and in particular not status 0 or 1. -/
inductive Outcome where
  | exited (code : Nat)
  | panicked
deriving DecidableEq

/-- The environment of one run: the flag value and the success or failure
of each external interaction `main` makes.  `blockPathExists` is true when
`os.Stat(common.ImporterWriteBlockPath)` does not report not-exist;
`writeOk` is true when the chosen consumer (`util.StreamDataToFile` or
`util.UnArchiveTar`) returns no error, i.e. no read or write error occurs
during the payload relay. -/
structure Config where
  pipedir : String
  tempDirOk : Bool
  headerOpenOk : Bool
  headerBytes : List Char
  payloadOpenOk : Bool
  blockPathExists : Bool
  writeOk : Bool
deriving DecidableEq

/-- The default value of the `pipedir` flag (Go line 44): the sentinel the
program uses to detect the flag's absence. -/
def defaultPipedir : String := "nopipedir"

/-- Errors distinguished by `main`. -/
inductive CloneErr where
  | openErr
  | headerErr (e : HeaderErr)
deriving DecidableEq

/-- Go `collectTotalSize` (lines 112–120): open the pipe (returning the
open error on failure, with no events), read the header, and close the
pipe via `defer` before returning — on the error paths of `readTotal`
too, since the function returns normally to its caller. -/
def collectTotalSize (cfg : Config) : List Event × Except CloneErr Nat :=
  if cfg.headerOpenOk then
    ([.openPipe, .readHeader, .closePipe],
     (readTotal cfg.headerBytes).mapError .headerErr)
  else ([], .error .openErr)

/-- The payload consumer `main` dispatches to (lines 93–103): marker
present means the block-device writer on the counting relay reader; marker
absent means the tar extractor on that reader into `"."`. -/
def dispatchEvent (cfg : Config) : Event :=
  if cfg.blockPathExists then .streamDataToFile .promReader
  else .unArchiveTar .promReader "."

/-- Go `main` (lines 52–110) as a trace of events plus an outcome.
`defer`red releases (`os.RemoveAll(certsDirectory)`, `out.Close()`) run
only on the normal-return path: `os.Exit(1)` terminates the process
without running deferred functions, and the `panic(err)` at line 57 occurs
before those defers are registered. -/
def mainRun (cfg : Config) : List Event × Outcome :=
  if cfg.tempDirOk = false then ([], .panicked)
  else if cfg.pipedir = defaultPipedir then ([.createTempDir], .exited 1)
  else
    match (collectTotalSize cfg).2 with
    | .error _ => (.createTempDir :: (collectTotalSize cfg).1, .exited 1)
    | .ok _ =>
      if cfg.payloadOpenOk = false then
        (.createTempDir :: (collectTotalSize cfg).1, .exited 1)
      else if cfg.writeOk = true then
        (.createTempDir :: (collectTotalSize cfg).1 ++
          [.openPipe, dispatchEvent cfg, .closePipe, .removeTempDir],
         .exited 0)
      else
        (.createTempDir :: (collectTotalSize cfg).1 ++
          [.openPipe, dispatchEvent cfg],
         .exited 1)

/-- Events that touch the named pipe. -/
def isPipeEvent : Event → Bool
  | .openPipe => true
  | .readHeader => true
  | .closePipe => true
  | _ => false

/-- Events that invoke a payload consumer. -/
def isConsumerEvent : Event → Bool
  | .streamDataToFile _ => true
  | .unArchiveTar _ _ => true
  | _ => false

/-- Occurrences of an event in a trace. -/
def countEv (e : Event) (tr : List Event) : Nat :=
  (tr.filter (fun x => x == e)).length

/-- A fully successful run: pipe present, header `"0000000000000400"`,
marker absent (filesystem mode), all I/O succeeding. -/
def cfgSuccess : Config :=
  ⟨"/tmp/clone-pipe", true, true, hdr1024, true, false, true⟩

example : (mainRun cfgSuccess).2 = .exited 0 := by rfl
example : (mainRun cfgSuccess).1 =
    [.createTempDir, .openPipe, .readHeader, .closePipe, .openPipe,
     .unArchiveTar .promReader ".", .closePipe, .removeTempDir] := by rfl

/-! ### Progress reporter lemmas -/

theorem updateProgress_le (total current : Nat) (p : ℚ) :
    p ≤ (updateProgress total current p).2 := by
  unfold updateProgress
  by_cases ht : 0 < total
  · by_cases hp : p < pct total current
    · rw [if_pos ht, if_pos hp]
      dsimp only
      linarith
    · rw [if_pos ht, if_neg hp]
  · rw [if_neg ht]

theorem updateProgress_cases (total current : Nat) (p : ℚ) :
    (updateProgress total current p).2 = p ∨
      (p < pct total current ∧ 0 < pct total current - p ∧
        (updateProgress total current p).2 = p + (pct total current - p)) := by
  unfold updateProgress
  by_cases ht : 0 < total
  · by_cases hp : p < pct total current
    · exact Or.inr ⟨hp, by linarith, by rw [if_pos ht, if_pos hp]⟩
    · exact Or.inl (by rw [if_pos ht, if_neg hp])
  · exact Or.inl (by rw [if_neg ht])

theorem runTicks_le (total : Nat) (samples : List Nat) (p : ℚ) :
    p ≤ (runTicks total samples p).2 := by
  induction samples generalizing p with
  | nil => exact le_rfl
  | cons c cs ih =>
    calc p ≤ (updateProgress total c p).2 := updateProgress_le total c p
      _ ≤ (runTicks total cs (updateProgress total c p).2).2 := ih _
      _ = (runTicks total (c :: cs) p).2 := rfl

theorem updateProgress_zero (current : Nat) (p : ℚ) :
    updateProgress 0 current p = ([], p) := by
  unfold updateProgress
  rw [if_neg (lt_irrefl 0)]

theorem runTicks_zero (samples : List Nat) (p : ℚ) :
    runTicks 0 samples p = ([], p) := by
  induction samples generalizing p with
  | nil => rfl
  | cons c cs ih => simp [runTicks, updateProgress_zero, ih]

/-- Claim C1: the published progress metric is monotonically non-decreasing.
Each tick of `updateProgress` either leaves the published counter value
unchanged, or — exactly when the freshly computed percentage exceeds the
last published value — adds the strictly positive difference
`current - last_published`; consequently across every sequence of reporter
ticks (`runTicks`, arbitrary sampled counter values, including decreasing
ones) the published value never decreases. -/
theorem published_metric_monotone :
    (∀ total current p, p ≤ (updateProgress total current p).2 ∧
        ((updateProgress total current p).2 = p ∨
          (p < pct total current ∧ 0 < pct total current - p ∧
            (updateProgress total current p).2 = p + (pct total current - p)))) ∧
    (∀ total samples p, p ≤ (runTicks total samples p).2) :=
  ⟨fun total current p =>
      ⟨updateProgress_le total current p, updateProgress_cases total current p⟩,
    fun total samples p => runTicks_le total samples p⟩

/-- Claim C2: when `total_size = 0`, a tick of `updateProgress` performs no
action at all — no percentage is computed (no division) and nothing is
published — and the same holds across every sequence of ticks: the action
trace is empty and the published value is untouched. -/
theorem zero_total_publishes_nothing (total current : Nat) (p : ℚ)
    (samples : List Nat) (h : total = 0) :
    updateProgress total current p = ([], p) ∧
    runTicks total samples p = ([], p) := by
  subst h
  exact ⟨updateProgress_zero current p, runTicks_zero samples p⟩

/-- Witness for claim C2 at `total = 0`, counter sample 7, last published 5,
and the tick sequence sampling 1, 2, 3. -/
theorem zero_total_publishes_nothing_witness :
    updateProgress 0 7 (5 : ℚ) = ([], 5) ∧ runTicks 0 [1, 2, 3] (5 : ℚ) = ([], 5) :=
  zero_total_publishes_nothing 0 7 5 [1, 2, 3] rfl

/-! ### Counting relay lemmas -/

theorem drainAux_eq (chunks : List (List Char)) (cur : Nat) :
    drainAux chunks cur = (chunks.flatten, cur + chunks.flatten.length) := by
  induction chunks generalizing cur with
  | nil => simp [drainAux]
  | cons c cs ih =>
    simp [drainAux, ih]
    omega

/-- Claim C7: for a source yielding exactly `n` bytes (as any sequence of
chunks) and then end-of-stream, fully draining the counting relay reader
from counter 0 delivers exactly the source's bytes, unbuffered and in
order, and leaves the shared counter equal to `n`; moreover every single
read passes its chunk through unchanged while adding exactly its length to
the counter. -/
theorem counting_relay_exact (chunks : List (List Char)) (n : Nat)
    (h : chunks.flatten.length = n) :
    (drain ⟨chunks, 0⟩).1 = chunks.flatten ∧
    (drain ⟨chunks, 0⟩).2.current = n ∧
    (∀ c cs cur, countingRead ⟨c :: cs, cur⟩ = (some c, ⟨cs, cur + c.length⟩)) := by
  subst h
  refine ⟨?_, ?_, fun c cs cur => rfl⟩
  · show (drainAux chunks 0).1 = chunks.flatten
    rw [drainAux_eq]
  · show (drainAux chunks 0).2 = chunks.flatten.length
    rw [drainAux_eq]
    exact Nat.zero_add _

/-- Witness for claim C7: the source `["ab", "c"]` yields 3 bytes. -/
theorem counting_relay_exact_witness :
    (drain ⟨["ab".toList, "c".toList], 0⟩).1 = "abc".toList ∧
    (drain ⟨["ab".toList, "c".toList], 0⟩).2.current = 3 :=
  ⟨((counting_relay_exact ["ab".toList, "c".toList] 3 (by decide)).1).trans (by decide),
    (counting_relay_exact ["ab".toList, "c".toList] 3 (by decide)).2.1⟩

/-! ### Header parsing lemmas -/

theorem hexDigitVal_getD_lt (c : Char) : (hexDigitVal c).getD 0 < 16 := by
  unfold hexDigitVal
  split_ifs with h1 h2 h3 <;> simp <;> omega

theorem hexValAux_eq_of_all (s : List Char) (acc : Nat)
    (h : ∀ c ∈ s, (hexDigitVal c).isSome) :
    hexValAux acc s =
      some (s.foldl (fun a c => a * 16 + (hexDigitVal c).getD 0) acc) := by
  induction s generalizing acc with
  | nil => rfl
  | cons c cs ih =>
    obtain ⟨d, hd⟩ := Option.isSome_iff_exists.mp (h c (List.mem_cons_self c cs))
    have hcs : ∀ x ∈ cs, (hexDigitVal x).isSome :=
      fun x hx => h x (List.mem_cons_of_mem c hx)
    simp [hexValAux, hd, ih _ hcs]

theorem foldl_hex_lt (s : List Char) (acc : Nat) :
    s.foldl (fun a c => a * 16 + (hexDigitVal c).getD 0) acc <
      (acc + 1) * 16 ^ s.length := by
  induction s generalizing acc with
  | nil => simp
  | cons c cs ih =>
    have hd : (hexDigitVal c).getD 0 < 16 := hexDigitVal_getD_lt c
    have h1 : cs.foldl (fun a c => a * 16 + (hexDigitVal c).getD 0)
        (acc * 16 + (hexDigitVal c).getD 0) <
        (acc * 16 + (hexDigitVal c).getD 0 + 1) * 16 ^ cs.length := ih _
    have h2 : (acc * 16 + (hexDigitVal c).getD 0 + 1) * 16 ^ cs.length ≤
        ((acc + 1) * 16) * 16 ^ cs.length := by
      apply Nat.mul_le_mul_right
      omega
    calc (c :: cs).foldl (fun a c => a * 16 + (hexDigitVal c).getD 0) acc
        = cs.foldl (fun a c => a * 16 + (hexDigitVal c).getD 0)
            (acc * 16 + (hexDigitVal c).getD 0) := rfl
      _ < (acc * 16 + (hexDigitVal c).getD 0 + 1) * 16 ^ cs.length := h1
      _ ≤ ((acc + 1) * 16) * 16 ^ cs.length := h2
      _ = (acc + 1) * 16 ^ (c :: cs).length := by
          rw [List.length_cons, pow_succ]
          ring

theorem hexNatVal_lt (s : List Char) : hexNatVal s < 16 ^ s.length := by
  have h := foldl_hex_lt s 0
  simpa [hexNatVal] using h

theorem hexValAux_none (s : List Char) (acc : Nat)
    (h : ∃ c ∈ s, hexDigitVal c = none) : hexValAux acc s = none := by
  induction s generalizing acc with
  | nil => simp at h
  | cons c cs ih =>
    obtain ⟨x, hx, hxn⟩ := h
    rcases List.mem_cons.mp hx with rfl | hx'
    · simp [hexValAux, hxn]
    · unfold hexValAux
      match hc : hexDigitVal c with
      | none => rfl
      | some d => exact ih _ ⟨x, hx', hxn⟩

theorem readChunk_of_ne_nil (s : List Char) (h : s ≠ []) :
    readChunk s 16 = ⟨s.take 16, min 16 s.length, false⟩ := by
  unfold readChunk
  rw [if_neg (by simpa using h)]

/-- Claim C3: for an input source providing exactly 16 bytes of hexadecimal
ASCII text, `readTotal` succeeds and returns the base-16 integer value of
those bytes. -/
theorem readTotal_parses_hex (s : List Char) (h16 : s.length = 16)
    (hhex : ∀ c ∈ s, (hexDigitVal c).isSome) :
    readTotal s = .ok (hexNatVal s) := by
  have hne : s ≠ [] := by
    intro h
    rw [h] at h16
    simp at h16
  have htake : s.take 16 = s := List.take_of_length_le (le_of_eq h16)
  have hchunk : readChunk s 16 = ⟨s, 16, false⟩ := by
    rw [readChunk_of_ne_nil s hne, htake, h16]
    norm_num
  have hbound : hexNatVal s < 2 ^ 64 := by
    have h := hexNatVal_lt s
    rw [h16] at h
    calc hexNatVal s < 16 ^ 16 := h
      _ ≤ 2 ^ 64 := by norm_num
  have hparse : parseUintHex64 s = .ok (hexNatVal s) := by
    unfold parseUintHex64
    rw [if_neg (by simpa using hne), hexValAux_eq_of_all s 0 hhex]
    exact if_pos hbound
  unfold readTotal
  rw [hchunk]
  simp [hparse]

/-- Witness for claim C3: the 16-byte header `"0000000000000400"` parses to
1024. -/
theorem readTotal_parses_hex_witness :
    readTotal hdr1024 = Except.ok (hexNatVal hdr1024) ∧ hexNatVal hdr1024 = 1024 :=
  ⟨readTotal_parses_hex hdr1024 (by decide) (by decide), by decide⟩

/-- Claim C4 counterexample: with zero bytes available before end-of-stream —
"fewer than 16 bytes" — `readTotal` does **not** return the short-header
error: the `Read` call itself returns `(0, io.EOF)` and `readTotal`
propagates that I/O error (Go lines 146–150) without reaching the
`n != len(b)` check. -/
theorem readTotal_empty_returns_io_error :
    readTotal [] = Except.error HeaderErr.ioError ∧
    readTotal [] ≠ Except.error HeaderErr.shortHeader := by
  refine ⟨rfl, fun h => ?_⟩
  have h2 : HeaderErr.ioError = HeaderErr.shortHeader :=
    Except.error.inj ((rfl : readTotal [] = Except.error HeaderErr.ioError).symm.trans h)
  exact absurd h2 (by decide)

/-- Claim C4, amended: `readTotal` fails exactly on bad input, with the
error depending on the failure: with at least one but fewer than 16 bytes
available before end-of-stream it returns the short-header error; with
zero bytes available it returns the underlying read error (`io.EOF`)
instead; if the 16 bytes read do not parse as hexadecimal it returns the
malformed-header error; and in every case in which the header phase
(`collectTotalSize`) reports an error, `main` treats it as fatal and the
process exits with status 1. -/
theorem readTotal_error_classification (s : List Char) (cfg : Config) :
    (s = [] → readTotal s = .error .ioError) ∧
    (0 < s.length → s.length < 16 → readTotal s = .error .shortHeader) ∧
    (16 ≤ s.length → (∃ c ∈ s.take 16, hexDigitVal c = none) →
      readTotal s = .error .malformed) ∧
    (cfg.tempDirOk = true → cfg.pipedir ≠ defaultPipedir →
      (∃ e, (collectTotalSize cfg).2 = Except.error e) →
      (mainRun cfg).2 = .exited 1) := by
  refine ⟨?_, ?_, ?_, ?_⟩
  · intro h
    subst h
    rfl
  · intro h0 h16
    have hne : s ≠ [] := List.ne_nil_of_length_pos h0
    have htake : s.take 16 = s := List.take_of_length_le (le_of_lt h16)
    unfold readTotal
    rw [readChunk_of_ne_nil s hne, htake]
    have hmin : min 16 s.length = s.length := by omega
    rw [hmin]
    simp only []
    rw [if_neg (by simp), if_pos (by omega)]
  · intro h16 hbad
    have hne : s ≠ [] := by
      intro h
      rw [h] at h16
      simp at h16
    have hlen : (s.take 16).length = 16 := by
      rw [List.length_take]
      omega
    have hmin : min 16 s.length = 16 := by omega
    have hparse : parseUintHex64 (s.take 16) = .error .badDigit := by
      unfold parseUintHex64
      have hne16 : s.take 16 ≠ [] := by
        intro h
        rw [h] at hlen
        simp at hlen
      rw [if_neg (by simpa using hne16), hexValAux_none (s.take 16) 0 hbad]
    unfold readTotal
    rw [readChunk_of_ne_nil s hne, hmin]
    simp [hparse]
  · intro h1 h2 ⟨e, he⟩
    unfold mainRun
    rw [if_neg (by simp [h1]), if_neg h2, he]

/-- Witness for claim C4, amended: a 10-byte input yields the short-header
error; 16 bytes containing `'z'` yield the malformed-header error; and a
run whose header phase fails exits with status 1. -/
theorem readTotal_error_classification_witness :
    readTotal "0123456789".toList = Except.error HeaderErr.shortHeader ∧
    readTotal "00000000000004zz".toList = Except.error HeaderErr.malformed ∧
    (mainRun ⟨"/tmp/clone-pipe", true, true, "0123456789".toList, true, false, true⟩).2 =
      Outcome.exited 1 :=
  ⟨(readTotal_error_classification "0123456789".toList cfgSuccess).2.1
      (by decide) (by decide),
    (readTotal_error_classification "00000000000004zz".toList cfgSuccess).2.2.1
      (by decide) ⟨'z', by decide, by decide⟩,
    (readTotal_error_classification []
        ⟨"/tmp/clone-pipe", true, true, "0123456789".toList, true, false, true⟩).2.2.2
      rfl (by decide) ⟨.headerErr .shortHeader, by rfl⟩⟩

/-! ### `main` trace lemmas -/

theorem collectTotalSize_ok (cfg : Config) (v : Nat)
    (h3 : cfg.headerOpenOk = true) (hv : readTotal cfg.headerBytes = .ok v) :
    collectTotalSize cfg = ([.openPipe, .readHeader, .closePipe], .ok v) := by
  unfold collectTotalSize
  rw [if_pos h3, hv]
  rfl

theorem collectTotalSize_headerErr (cfg : Config) (e : HeaderErr)
    (h3 : cfg.headerOpenOk = true) (hv : readTotal cfg.headerBytes = .error e) :
    collectTotalSize cfg =
      ([.openPipe, .readHeader, .closePipe], .error (.headerErr e)) := by
  unfold collectTotalSize
  rw [if_pos h3, hv]
  rfl

theorem collectTotalSize_openErr (cfg : Config) (h3 : cfg.headerOpenOk = false) :
    collectTotalSize cfg = ([], .error .openErr) := by
  unfold collectTotalSize
  rw [if_neg (by simp [h3])]

theorem mainRun_eq_of_tempDirFail (cfg : Config) (h : cfg.tempDirOk = false) :
    mainRun cfg = ([], .panicked) := by
  unfold mainRun
  rw [if_pos h]

theorem mainRun_eq_of_noPipeFlag (cfg : Config) (h1 : cfg.tempDirOk = true)
    (h2 : cfg.pipedir = defaultPipedir) :
    mainRun cfg = ([.createTempDir], .exited 1) := by
  unfold mainRun
  rw [if_neg (by simp [h1]), if_pos h2]

theorem mainRun_eq_of_collectErr (cfg : Config) (e : CloneErr)
    (h1 : cfg.tempDirOk = true) (h2 : cfg.pipedir ≠ defaultPipedir)
    (he : (collectTotalSize cfg).2 = .error e) :
    mainRun cfg = (.createTempDir :: (collectTotalSize cfg).1, .exited 1) := by
  unfold mainRun
  rw [if_neg (by simp [h1]), if_neg h2, he]

theorem mainRun_eq_of_payloadOpenFail (cfg : Config) (v : Nat)
    (h1 : cfg.tempDirOk = true) (h2 : cfg.pipedir ≠ defaultPipedir)
    (hok : (collectTotalSize cfg).2 = .ok v) (h5 : cfg.payloadOpenOk = false) :
    mainRun cfg = (.createTempDir :: (collectTotalSize cfg).1, .exited 1) := by
  unfold mainRun
  rw [if_neg (by simp [h1]), if_neg h2, hok]
  rw [if_pos h5]

theorem mainRun_eq_of_payload (cfg : Config) (v : Nat)
    (h1 : cfg.tempDirOk = true) (h2 : cfg.pipedir ≠ defaultPipedir)
    (hok : (collectTotalSize cfg).2 = .ok v) (h5 : cfg.payloadOpenOk = true) :
    mainRun cfg =
      if cfg.writeOk = true then
        (.createTempDir :: (collectTotalSize cfg).1 ++
          [.openPipe, dispatchEvent cfg, .closePipe, .removeTempDir], .exited 0)
      else
        (.createTempDir :: (collectTotalSize cfg).1 ++
          [.openPipe, dispatchEvent cfg], .exited 1) := by
  unfold mainRun
  rw [if_neg (by simp [h1]), if_neg h2, hok, if_neg (by simp [h5])]

theorem dispatchEvent_cases (cfg : Config) :
    dispatchEvent cfg = .streamDataToFile .promReader ∨
    dispatchEvent cfg = .unArchiveTar .promReader "." := by
  unfold dispatchEvent
  by_cases h : cfg.blockPathExists = true
  · exact Or.inl (if_pos h)
  · exact Or.inr (if_neg h)

/-- Claim C5: the header phase and the payload phase are two separate
open/close cycles of the same pipe: `collectTotalSize` opens the pipe,
reads the header, and closes the pipe before returning, and only after
that does `main` perform a second, fresh open for the payload — the pipe
events of the whole run start with open, read-header, close, open, so no
handle spans both phases. -/
theorem two_phase_pipe_protocol (cfg : Config)
    (h1 : cfg.tempDirOk = true) (h2 : cfg.pipedir ≠ defaultPipedir)
    (h3 : cfg.headerOpenOk = true)
    (h4 : ∃ v, readTotal cfg.headerBytes = Except.ok v)
    (h5 : cfg.payloadOpenOk = true) :
    (collectTotalSize cfg).1 = [.openPipe, .readHeader, .closePipe] ∧
    ∃ rest, (mainRun cfg).1.filter isPipeEvent =
      [.openPipe, .readHeader, .closePipe, .openPipe] ++ rest := by
  obtain ⟨v, hv⟩ := h4
  have hc := collectTotalSize_ok cfg v h3 hv
  have hok : (collectTotalSize cfg).2 = .ok v := by rw [hc]
  have hm := mainRun_eq_of_payload cfg v h1 h2 hok h5
  refine ⟨by rw [hc], ?_⟩
  rw [hm, hc]
  rcases dispatchEvent_cases cfg with hd | hd <;>
    by_cases hw : cfg.writeOk = true
  · exact ⟨[.closePipe], by simp [hw, hd, isPipeEvent]⟩
  · exact ⟨[], by simp [hw, hd, isPipeEvent]⟩
  · exact ⟨[.closePipe], by simp [hw, hd, isPipeEvent]⟩
  · exact ⟨[], by simp [hw, hd, isPipeEvent]⟩

/-- Witness for claim C5 at a fully successful run. -/
theorem two_phase_pipe_protocol_witness :
    (collectTotalSize cfgSuccess).1 = [.openPipe, .readHeader, .closePipe] ∧
    ∃ rest, (mainRun cfgSuccess).1.filter isPipeEvent =
      [.openPipe, .readHeader, .closePipe, .openPipe] ++ rest :=
  two_phase_pipe_protocol cfgSuccess rfl (by decide) rfl ⟨1024, by rfl⟩ rfl

/-- Claim C6: once the payload phase is reached, exactly one consumer is
invoked, always with the counting relay reader as its byte source: the
block-device writer when the marker path exists, the tar extractor
unpacking into the current working directory (`"."`) when it does not. -/
theorem destination_dispatch (cfg : Config)
    (h1 : cfg.tempDirOk = true) (h2 : cfg.pipedir ≠ defaultPipedir)
    (h3 : cfg.headerOpenOk = true)
    (h4 : ∃ v, readTotal cfg.headerBytes = Except.ok v)
    (h5 : cfg.payloadOpenOk = true) :
    (mainRun cfg).1.filter isConsumerEvent = [dispatchEvent cfg] ∧
    (cfg.blockPathExists = true →
      dispatchEvent cfg = .streamDataToFile .promReader) ∧
    (cfg.blockPathExists = false →
      dispatchEvent cfg = .unArchiveTar .promReader ".") := by
  obtain ⟨v, hv⟩ := h4
  have hc := collectTotalSize_ok cfg v h3 hv
  have hok : (collectTotalSize cfg).2 = .ok v := by rw [hc]
  have hm := mainRun_eq_of_payload cfg v h1 h2 hok h5
  refine ⟨?_, fun hb => by unfold dispatchEvent; rw [if_pos hb],
    fun hb => by unfold dispatchEvent; rw [if_neg (by simp [hb])]⟩
  rw [hm, hc]
  rcases dispatchEvent_cases cfg with hd | hd <;>
    by_cases hw : cfg.writeOk = true <;>
    simp [hw, hd, isConsumerEvent]

/-- Witness for claim C6: marker absent, so the tar extractor is the one
consumer invoked. -/
theorem destination_dispatch_witness :
    (mainRun cfgSuccess).1.filter isConsumerEvent = [dispatchEvent cfgSuccess] ∧
    dispatchEvent cfgSuccess = .unArchiveTar .promReader "." :=
  ⟨(destination_dispatch cfgSuccess rfl (by decide) rfl ⟨1024, by rfl⟩ rfl).1,
    (destination_dispatch cfgSuccess rfl (by decide) rfl ⟨1024, by rfl⟩ rfl).2.2 rfl⟩

/-! ### Exit codes and resource lifetimes -/

theorem bool_eq_true_of_ne_false (b : Bool) (h : ¬b = false) : b = true := by
  cases b
  · exact absurd rfl h
  · rfl

/-- Whether `readTotal` succeeds on the given header bytes. -/
def headerParses (s : List Char) : Bool :=
  match readTotal s with
  | .ok _ => true
  | .error _ => false

/-- All conditions for a successful run once the process has started:
pipe flag set, header open and parse succeed, payload open succeeds, and
the payload relay and write succeed. -/
def runSucceeds (cfg : Config) : Bool :=
  (!(cfg.pipedir == defaultPipedir)) && cfg.headerOpenOk &&
    headerParses cfg.headerBytes && cfg.payloadOpenOk && cfg.writeOk

theorem mainRun_outcome (cfg : Config) :
    (mainRun cfg).2 =
      if cfg.tempDirOk = false then .panicked
      else if runSucceeds cfg = true then .exited 0 else .exited 1 := by
  by_cases h1 : cfg.tempDirOk = false
  · rw [mainRun_eq_of_tempDirFail cfg h1, if_pos h1]
  · have h1' : cfg.tempDirOk = true := bool_eq_true_of_ne_false _ h1
    rw [if_neg h1]
    by_cases h2 : cfg.pipedir = defaultPipedir
    · rw [mainRun_eq_of_noPipeFlag cfg h1' h2,
        if_neg (by simp [runSucceeds, h2])]
    · by_cases h3 : cfg.headerOpenOk = true
      · cases hr : readTotal cfg.headerBytes with
        | error e =>
          have hc := collectTotalSize_headerErr cfg e h3 hr
          rw [mainRun_eq_of_collectErr cfg (.headerErr e) h1' h2 (by rw [hc]),
            if_neg (by simp [runSucceeds, headerParses, hr])]
        | ok v =>
          have hc := collectTotalSize_ok cfg v h3 hr
          by_cases h5 : cfg.payloadOpenOk = true
          · rw [mainRun_eq_of_payload cfg v h1' h2 (by rw [hc]) h5]
            by_cases hw : cfg.writeOk = true
            · rw [if_pos hw,
                if_pos (by simp [runSucceeds, headerParses, hr, h2, h3, h5, hw])]
            · rw [if_neg hw, if_neg (by simp [runSucceeds, hw])]
          · rw [mainRun_eq_of_payloadOpenFail cfg v h1' h2 (by rw [hc])
                (Bool.not_eq_true _ ▸ h5),
              if_neg (by simp [runSucceeds, h5])]
      · have h3' : cfg.headerOpenOk = false := Bool.not_eq_true _ ▸ h3
        have hc := collectTotalSize_openErr cfg h3'
        rw [mainRun_eq_of_collectErr cfg .openErr h1' h2 (by rw [hc]),
          if_neg (by simp [runSucceeds, h3'])]

theorem mainRun_trace_cases (cfg : Config) :
    mainRun cfg = ([], .panicked) ∨
    mainRun cfg = ([.createTempDir], .exited 1) ∨
    mainRun cfg =
      ([.createTempDir, .openPipe, .readHeader, .closePipe], .exited 1) ∨
    mainRun cfg =
      ([.createTempDir, .openPipe, .readHeader, .closePipe, .openPipe,
        dispatchEvent cfg], .exited 1) ∨
    mainRun cfg =
      ([.createTempDir, .openPipe, .readHeader, .closePipe, .openPipe,
        dispatchEvent cfg, .closePipe, .removeTempDir], .exited 0) := by
  by_cases h1 : cfg.tempDirOk = false
  · exact Or.inl (mainRun_eq_of_tempDirFail cfg h1)
  · have h1' : cfg.tempDirOk = true := bool_eq_true_of_ne_false _ h1
    by_cases h2 : cfg.pipedir = defaultPipedir
    · exact Or.inr (Or.inl (mainRun_eq_of_noPipeFlag cfg h1' h2))
    · by_cases h3 : cfg.headerOpenOk = true
      · cases hr : readTotal cfg.headerBytes with
        | error e =>
          have hc := collectTotalSize_headerErr cfg e h3 hr
          have hm := mainRun_eq_of_collectErr cfg (.headerErr e) h1' h2 (by rw [hc])
          rw [hc] at hm
          exact Or.inr (Or.inr (Or.inl hm))
        | ok v =>
          have hc := collectTotalSize_ok cfg v h3 hr
          by_cases h5 : cfg.payloadOpenOk = true
          · have hm := mainRun_eq_of_payload cfg v h1' h2 (by rw [hc]) h5
            rw [hc] at hm
            by_cases hw : cfg.writeOk = true
            · rw [if_pos hw] at hm
              exact Or.inr (Or.inr (Or.inr (Or.inr hm)))
            · rw [if_neg hw] at hm
              exact Or.inr (Or.inr (Or.inr (Or.inl hm)))
          · have hm := mainRun_eq_of_payloadOpenFail cfg v h1' h2 (by rw [hc])
              (Bool.not_eq_true _ ▸ h5)
            rw [hc] at hm
            exact Or.inr (Or.inr (Or.inl hm))
      · have h3' : cfg.headerOpenOk = false := Bool.not_eq_true _ ▸ h3
        have hc := collectTotalSize_openErr cfg h3'
        have hm := mainRun_eq_of_collectErr cfg .openErr h1' h2 (by rw [hc])
        rw [hc] at hm
        exact Or.inr (Or.inl hm)

/-- Claim C8 counterexample: when `ioutil.TempDir` fails, `main` panics
(Go line 57) instead of exiting with status 1 — a Go panic terminates the
process with the panic status (2), not 0 or 1 — so "no error produces any
other exit status" fails on that error. -/
theorem tempdir_failure_panics :
    (mainRun ⟨"/tmp/clone-pipe", false, true, hdr1024, true, false, true⟩).2 =
      .panicked ∧
    Outcome.panicked ≠ .exited 1 ∧ Outcome.panicked ≠ .exited 0 :=
  ⟨rfl, by decide, by decide⟩

/-- Claim C8, amended: the process exits with status 0 exactly when startup
and every phase succeed; on every one of the listed fatal conditions —
missing pipe flag, channel open error, header read or parse error, payload
open error, read or write error during the relay — it exits with status 1,
none retried; the only other way the process can end is the panic on
temporary-directory creation failure. -/
theorem exit_code_policy (cfg : Config) :
    ((mainRun cfg).2 = .exited 0 ↔
      cfg.tempDirOk = true ∧ runSucceeds cfg = true) ∧
    ((mainRun cfg).2 = .panicked ↔ cfg.tempDirOk = false) ∧
    (cfg.tempDirOk = true →
      (cfg.pipedir = defaultPipedir ∨ cfg.headerOpenOk = false ∨
        (∃ e, readTotal cfg.headerBytes = Except.error e) ∨
        cfg.payloadOpenOk = false ∨ cfg.writeOk = false) →
      (mainRun cfg).2 = .exited 1) ∧
    ((mainRun cfg).2 = .exited 0 ∨ (mainRun cfg).2 = .exited 1 ∨
      (mainRun cfg).2 = .panicked) := by
  have hout := mainRun_outcome cfg
  by_cases h1 : cfg.tempDirOk = false
  · rw [hout, if_pos h1]
    refine ⟨by simp [h1], by simp [h1], by simp [h1], Or.inr (Or.inr rfl)⟩
  · have h1' : cfg.tempDirOk = true := bool_eq_true_of_ne_false _ h1
    rw [hout, if_neg h1]
    by_cases hs : runSucceeds cfg = true
    · rw [if_pos hs]
      have hsp := hs
      simp only [runSucceeds, Bool.and_eq_true, Bool.not_eq_true',
        beq_eq_false_iff_ne] at hsp
      refine ⟨by simp [h1', hs], by simp [h1'], ?_, Or.inl rfl⟩
      intro _ hcond
      exfalso
      rcases hcond with hc | hc | ⟨e, hc⟩ | hc | hc
      · exact hsp.1.1.1.1 hc
      · rw [hc] at hsp
        exact Bool.false_ne_true hsp.1.1.1.2
      · have : headerParses cfg.headerBytes = false := by
          simp [headerParses, hc]
        rw [this] at hsp
        exact Bool.false_ne_true hsp.1.1.2
      · rw [hc] at hsp
        exact Bool.false_ne_true hsp.1.2
      · rw [hc] at hsp
        exact Bool.false_ne_true hsp.2
    · rw [if_neg hs]
      exact ⟨by simp [hs], by simp [h1'], fun _ _ => rfl, Or.inr (Or.inl rfl)⟩

/-- A run in block-device mode whose device write fails mid-stream. -/
def cfgWriteErr : Config := ⟨"/tmp/clone-pipe", true, true, hdr1024, true, true, false⟩

/-- Witness for claim C8, amended: a fully successful run exits 0; a run
with a mid-stream write error exits 1. -/
theorem exit_code_policy_witness :
    (mainRun cfgSuccess).2 = .exited 0 ∧ (mainRun cfgWriteErr).2 = .exited 1 :=
  ⟨(exit_code_policy cfgSuccess).1.mpr ⟨rfl, by decide⟩,
    (exit_code_policy cfgWriteErr).2.2.1 rfl
      (Or.inr (Or.inr (Or.inr (Or.inr rfl))))⟩

/-- Claim C9 counterexample: on the write-error exit path the process
terminates via `os.Exit(1)`, which runs no deferred functions: the
temporary certs directory was created but is never removed, and of the two
pipe opens only the header-phase one (whose `defer`red close ran when
`collectTotalSize` returned normally) is matched by a close. -/
theorem error_exit_skips_cleanup :
    (mainRun cfgWriteErr).2 = .exited 1 ∧
    countEv .createTempDir (mainRun cfgWriteErr).1 = 1 ∧
    countEv .removeTempDir (mainRun cfgWriteErr).1 = 0 ∧
    countEv .openPipe (mainRun cfgWriteErr).1 = 2 ∧
    countEv .closePipe (mainRun cfgWriteErr).1 = 1 := by
  decide

/-- Claim C9, amended: deferred releases run only on the normal-return
path: when the process exits with status 0 every open of the pipe is
matched by a close and the temporary certs directory is removed, but on
every error path (exit status 1) the process exits immediately without the
deferred removal, so the temporary directory is never removed there. -/
theorem resource_release_policy (cfg : Config) :
    ((mainRun cfg).2 = .exited 0 →
      countEv .openPipe (mainRun cfg).1 = 2 ∧
      countEv .closePipe (mainRun cfg).1 = 2 ∧
      countEv .createTempDir (mainRun cfg).1 = 1 ∧
      countEv .removeTempDir (mainRun cfg).1 = 1) ∧
    ((mainRun cfg).2 = .exited 1 → Event.removeTempDir ∉ (mainRun cfg).1) := by
  rcases dispatchEvent_cases cfg with hd | hd <;>
    rcases mainRun_trace_cases cfg with h | h | h | h | h <;>
    rw [h] <;> (try rw [hd]) <;> decide

/-- Witness for claim C9, amended at a fully successful run. -/
theorem resource_release_policy_witness :
    countEv .openPipe (mainRun cfgSuccess).1 = 2 ∧
    countEv .closePipe (mainRun cfgSuccess).1 = 2 ∧
    countEv .createTempDir (mainRun cfgSuccess).1 = 1 ∧
    countEv .removeTempDir (mainRun cfgSuccess).1 = 1 :=
  (resource_release_policy cfgSuccess).1 rfl

/-- Claim C10: the `pipedir` flag's default is the sentinel string
`"nopipedir"` and `main` exits when the flag equals it, so passing
`-pipedir=nopipedir` explicitly is indistinguishable from omitting the
flag: the run is identical to one with the default value, no pipe is ever
opened (so a pipe actually named `"nopipedir"` can never be used), and —
provided startup reached the check, i.e. the temporary directory was
created — the process exits with status 1. -/
theorem nopipedir_sentinel (cfg : Config) (h : cfg.pipedir = defaultPipedir) :
    defaultPipedir = "nopipedir" ∧
    mainRun cfg = mainRun ⟨defaultPipedir, cfg.tempDirOk, cfg.headerOpenOk,
      cfg.headerBytes, cfg.payloadOpenOk, cfg.blockPathExists, cfg.writeOk⟩ ∧
    Event.openPipe ∉ (mainRun cfg).1 ∧
    (cfg.tempDirOk = true → (mainRun cfg).2 = .exited 1) := by
  have hcfg : cfg = ⟨defaultPipedir, cfg.tempDirOk, cfg.headerOpenOk,
      cfg.headerBytes, cfg.payloadOpenOk, cfg.blockPathExists, cfg.writeOk⟩ := by
    rcases cfg with ⟨pd, a, b, c, d, e, f⟩
    have h' : pd = defaultPipedir := h
    subst h'
    rfl
  refine ⟨rfl, by rw [← hcfg], ?_, ?_⟩
  · by_cases h1 : cfg.tempDirOk = false
    · rw [mainRun_eq_of_tempDirFail cfg h1]
      decide
    · rw [mainRun_eq_of_noPipeFlag cfg (bool_eq_true_of_ne_false _ h1) h]
      decide
  · intro h1
    rw [mainRun_eq_of_noPipeFlag cfg h1 h]

/-- Witness for claim C10: a run invoked with `-pipedir=nopipedir`. -/
theorem nopipedir_sentinel_witness :
    Event.openPipe ∉ (mainRun ⟨"nopipedir", true, true, [], true, false, true⟩).1 ∧
    (mainRun ⟨"nopipedir", true, true, [], true, false, true⟩).2 = .exited 1 :=
  ⟨(nopipedir_sentinel ⟨"nopipedir", true, true, [], true, false, true⟩ rfl).2.2.1,
    (nopipedir_sentinel ⟨"nopipedir", true, true, [], true, false, true⟩ rfl).2.2.2 rfl⟩

end ClonerTarget
